import Mathlib

/-!
Shallow embedding of the replication and persistence core of a local-first
outliner (the thoughtspace module): the doclog observers, the doclog append
with tail deduplication, the mutex, the update set driving the isPushing
flag, the entity codec for thought documents, deletion with swallowed
errors, clear, and the synchronous registry install in the replicate
functions.  Definitions are translated from the source file; the few
helpers whose source is not part of the repository snapshot are modelled
from the specification and marked as such.
-/

namespace Em

/-- Action tags of the doclog, from the DocLogAction enum in the source. -/
inductive DocLogAction
  | Delete
  | Update
deriving DecidableEq, Repr

/-- An entry of a doclog array: an entity id or key paired with an action. -/
abbrev LogEntry := String × DocLogAction

/-- A task built by the thoughtLog observer for a surviving delta entry:
replicate the thought on Update, or dispatch a null state update and delete
the thought on Delete. -/
inductive ThoughtTask
  | replicate (id : String)
  | dispatchNullAndDelete (id : String)
deriving DecidableEq, Repr

/-- The id a thought task acts on. -/
def ThoughtTask.tid : ThoughtTask → String
  | .replicate i => i
  | .dispatchNullAndDelete i => i

/-- The task the thoughtLog observer builds for one surviving delta entry. -/
def taskOf : LogEntry → ThoughtTask
  | (id, .Update) => .replicate id
  | (id, .Delete) => .dispatchNullAndDelete id

/-- The body of the map over the reversed deltas in thoughtLog.observe:
an entry whose id is already in the traversed set yields null, otherwise
the id is recorded and its task is built. -/
def observeTaskOpts : List LogEntry → List String → List (Option ThoughtTask)
  | [], _ => []
  | (id, a) :: rest, seen =>
    if id ∈ seen then none :: observeTaskOpts rest seen
    else some (taskOf (id, a)) :: observeTaskOpts rest (id :: seen)

/-- Embedding of thoughtLog.observe from the source: ignore events whose
origin is the doclog client itself, flatten the delta to the inserted
entries, reverse so that newer entries are considered first, skip ids
already traversed, and submit the non-null tasks to the replication
queue. -/
def thoughtLogObserve (clientID origin : Nat) (inserts : List LogEntry) :
    List ThoughtTask :=
  if origin = clientID then []
  else (observeTaskOpts inserts.reverse []).reduceOption

/-- Claim C1: for every sequence of remote insertions into thoughtLog with
ids [a, b, a] ordered oldest to newest, the observer submits exactly one
replication task for a and exactly one for b, and the task for a
corresponds to the newest action recorded for a. -/
theorem C1_thoughtLog_observer_dedup (clientID origin : Nat) (a b : String)
    (x y z : DocLogAction) (hab : a ≠ b) (ho : origin ≠ clientID) :
    ((thoughtLogObserve clientID origin [(a, x), (b, y), (a, z)]).filter
        (fun t => t.tid == a)).length = 1 ∧
    ((thoughtLogObserve clientID origin [(a, x), (b, y), (a, z)]).filter
        (fun t => t.tid == b)).length = 1 ∧
    (thoughtLogObserve clientID origin [(a, x), (b, y), (a, z)]).filter
        (fun t => t.tid == a) = [taskOf (a, z)] := by
  have hba : ¬ (b = a) := fun h => hab h.symm
  have hba2 : (b == a) = false := by simp [hba]
  cases y <;> cases z <;>
    simp [thoughtLogObserve, observeTaskOpts, taskOf, ThoughtTask.tid, ho,
      hab, hba, hba2, List.filter, List.reduceOption, beq_iff_eq]

/-- Concrete instantiation of the C1 theorem. -/
theorem C1_thoughtLog_observer_dedup_witness :
    ("a" : String) ≠ "b" ∧ (1 : Nat) ≠ 0 ∧
    (((thoughtLogObserve 0 1
        [("a", .Update), ("b", .Update), ("a", .Delete)]).filter
        (fun t => t.tid == "a")).length = 1 ∧
    ((thoughtLogObserve 0 1
        [("a", .Update), ("b", .Update), ("a", .Delete)]).filter
        (fun t => t.tid == "b")).length = 1 ∧
    (thoughtLogObserve 0 1
        [("a", .Update), ("b", .Update), ("a", .Delete)]).filter
        (fun t => t.tid == "a") = [taskOf ("a", .Delete)]) :=
  ⟨by decide, by decide,
    C1_thoughtLog_observer_dedup 0 1 "a" "b" .Update .Update .Delete
      (by decide) (by decide)⟩

/-- State of the simple mutex from the source.  locked is the flag;
resolved lists the lock callers whose promise has resolved, in resolution
order; interval models the callback registered with setInterval: the
source hands setInterval the result of an eager tryLock(resolve) call, a
Boolean rather than a function, so no waiter is ever registered and the
field is never set to some value. -/
structure MutexState where
  locked : Bool
  resolved : List Nat
  interval : Option Nat
deriving DecidableEq, Repr

/-- tryLock from the source, invoked for the waiter w: if the mutex is
unlocked, clear the interval, set locked, and invoke the callback,
resolving w; otherwise report failure. -/
def tryLock (w : Nat) (s : MutexState) : Bool × MutexState :=
  if s.locked then (false, s)
  else (true, { locked := true, resolved := s.resolved ++ [w], interval := none })

/-- lock from the source, for the waiter w: try once; on failure, evaluate
tryLock(resolve) once more as the argument expression of setInterval, whose
Boolean result is stored in place of a callback, so the interval holds no
retry for w. -/
def lock (w : Nat) (s : MutexState) : MutexState :=
  let r := tryLock w s
  if r.1 then r.2
  else
    let r2 := tryLock w r.2
    { r2.2 with interval := none }

/-- unlock from the source: reset the locked flag. -/
def unlock (s : MutexState) : MutexState := { s with locked := false }

/-- A firing of the interval timer: runs the registered retry callback if
one exists. -/
def mutexTick (s : MutexState) : MutexState :=
  match s.interval with
  | some w => (tryLock w s).2
  | none => s

/-- Events of the mutex model. -/
inductive MutexEvent
  | lock (w : Nat)
  | unlock
  | tick
deriving DecidableEq, Repr

/-- One step of the mutex model. -/
def mutexStep (s : MutexState) : MutexEvent → MutexState
  | .lock w => lock w s
  | .unlock => unlock s
  | .tick => mutexTick s

/-- Initial mutex state. -/
def mutexInit : MutexState := { locked := false, resolved := [], interval := none }

/-- Run of the mutex model from the initial state. -/
def mutexRun (evs : List MutexEvent) : MutexState := evs.foldl mutexStep mutexInit

theorem mutexTick_replicate (n : Nat) (s : MutexState) (h : s.interval = none) :
    List.foldl mutexStep s (List.replicate n .tick) = s := by
  induction n with
  | zero => rfl
  | succ k ih => simp [List.replicate_succ, List.foldl_cons, mutexStep, mutexTick, h, ih]

/-- Claim C5 (code bug): a lock call issued while the mutex is held is
never resolved, even after unlock and arbitrarily many interval firings,
because the source passes setInterval the Boolean result of an eager
tryLock call instead of a retry callback; waiter 2 starves forever. -/
theorem C5_mutex_waiter_starves (n : Nat) :
    (mutexRun ([.lock 1, .lock 2, .unlock] ++ List.replicate n .tick)).locked = false ∧
    (mutexRun ([.lock 1, .lock 2, .unlock] ++ List.replicate n .tick)).resolved = [1] ∧
    2 ∉ (mutexRun ([.lock 1, .lock 2, .unlock] ++ List.replicate n .tick)).resolved := by
  have h0 : List.foldl mutexStep mutexInit [.lock 1, .lock 2, .unlock] =
      { locked := false, resolved := [1], interval := none } := by rfl
  have h1 : mutexRun ([.lock 1, .lock 2, .unlock] ++ List.replicate n .tick) =
      { locked := false, resolved := [1], interval := none } := by
    rw [mutexRun, List.foldl_append, h0, mutexTick_replicate n _ rfl]
  rw [h1]
  exact ⟨rfl, rfl, by simp⟩

/-- State of the update queue together with the stream of isPushing values
pushed to the push store, in order. -/
structure PushState where
  updateQueue : List String
  pushes : List Bool
deriving DecidableEq, Repr

/-- enqueue from the source: insert the key into the updateQueue and push
isPushing true unconditionally. -/
def enqueue (k : String) (s : PushState) : PushState :=
  { updateQueue := if k ∈ s.updateQueue then s.updateQueue else k :: s.updateQueue,
    pushes := s.pushes ++ [true] }

/-- dequeue from the source: remove the key, and push isPushing false when
the updateQueue is empty after the removal. -/
def dequeue (k : String) (s : PushState) : PushState :=
  let q := s.updateQueue.filter (fun x => x != k)
  { updateQueue := q,
    pushes := if q = [] then s.pushes ++ [false] else s.pushes }

/-- Operations on the update set. -/
inductive QueueOp
  | enq (k : String)
  | deq (k : String)
deriving DecidableEq, Repr

/-- One call on the update set. -/
def queueStep (s : PushState) : QueueOp → PushState
  | .enq k => enqueue k s
  | .deq k => dequeue k s

/-- Run of the update set from the empty initial state. -/
def queueRun (ops : List QueueOp) : PushState :=
  ops.foldl queueStep { updateQueue := [], pushes := [] }

/-- Current isPushing value after a stream of pushed values: the last
pushed value, initially false. -/
def isPushingAfter (pushes : List Bool) : Bool := (pushes.getLast?).getD false

/-- Effect of one operation on the bare key set. -/
def applyOp (q : List String) : QueueOp → List String
  | .enq k => if k ∈ q then q else k :: q
  | .deq k => q.filter (fun x => x != k)

/-- Pushes predicted by the words of the claim: the flag is pushed only on
empty-transition edges, true when the set becomes non-empty and false when
it becomes empty, never while the emptiness status is unchanged. -/
def edgePushes : List String → List QueueOp → List Bool
  | _, [] => []
  | q, op :: rest =>
    let q2 := applyOp q op
    (if q = [] ∧ q2 ≠ [] then [true]
     else if q ≠ [] ∧ q2 = [] then [false]
     else []) ++ edgePushes q2 rest

/-- Claim C6 counterexample: two consecutive enqueues push the isPushing
flag twice, although only the first is an empty-transition edge, so the
flag is re-broadcast while the emptiness status is unchanged, contrary to
the claim. -/
theorem C6_isPushing_counterexample :
    (queueRun [.enq "a", .enq "b"]).pushes = [true, true] ∧
    edgePushes [] [.enq "a", .enq "b"] = [true] ∧
    (queueRun [.enq "a", .enq "b"]).pushes ≠ edgePushes [] [.enq "a", .enq "b"] := by
  refine ⟨rfl, rfl, by decide⟩

theorem queueStep_isPushing (s : PushState)
    (h : isPushingAfter s.pushes = true ↔ s.updateQueue ≠ []) (op : QueueOp) :
    isPushingAfter (queueStep s op).pushes = true ↔ (queueStep s op).updateQueue ≠ [] := by
  cases op with
  | enq k =>
    constructor
    · intro _
      by_cases hk : k ∈ s.updateQueue
      · simp only [queueStep, enqueue, if_pos hk]
        exact fun he => by simp [he] at hk
      · simp [queueStep, enqueue, if_neg hk]
    · intro _
      simp [queueStep, enqueue, isPushingAfter]
  | deq k =>
    simp only [queueStep, dequeue]
    by_cases hq : s.updateQueue.filter (fun x => x != k) = []
    · simp [hq, isPushingAfter]
    · have hne : s.updateQueue ≠ [] := by
        intro he
        simp [he] at hq
      simp only [if_neg hq]
      constructor
      · intro _
        exact hq
      · intro _
        exact h.mpr hne

theorem queueRun_isPushing (ops : List QueueOp) :
    isPushingAfter (queueRun ops).pushes = true ↔ (queueRun ops).updateQueue ≠ [] := by
  suffices h : ∀ s, (isPushingAfter s.pushes = true ↔ s.updateQueue ≠ []) →
      (isPushingAfter (ops.foldl queueStep s).pushes = true ↔
        (ops.foldl queueStep s).updateQueue ≠ []) by
    exact h _ (by simp [isPushingAfter])
  induction ops with
  | nil => exact fun s h => h
  | cons op rest ih => exact fun s h => ih _ (queueStep_isPushing s h op)

/-- Claim C6 amended: after every interleaving of enqueue and dequeue
calls, isPushing is true iff the update set is non-empty; however the flag
is pushed to the sink on every enqueue, also when the set was already
non-empty, and false is pushed on exactly those dequeues that leave the set
empty. -/
theorem C6_isPushing_amended (ops : List QueueOp) :
    (isPushingAfter (queueRun ops).pushes = true ↔ (queueRun ops).updateQueue ≠ []) ∧
    (∀ s k, (queueStep s (.enq k)).pushes = s.pushes ++ [true]) ∧
    (∀ s k, (queueStep s (.deq k)).pushes = s.pushes ++
      (if s.updateQueue.filter (fun x => x != k) = [] then [false] else [])) := by
  refine ⟨queueRun_isPushing ops, fun s k => rfl, fun s k => ?_⟩
  by_cases hq : s.updateQueue.filter (fun x => x != k) = [] <;>
    simp [queueStep, dequeue, hq]

/-- An application thought, restricted to the fields stored in a thought
document: id, parentId, value, rank, lastUpdated as representative scalar
fields, and childrenMap as a mapping from child key to child id. -/
structure Thought where
  id : String
  parentId : String
  value : String
  rank : Int
  lastUpdated : Nat
  childrenMap : List (String × String)
deriving DecidableEq, Repr

/-- Database shape of a thought, with the same scalar fields and a plain
childrenMap mapping. -/
structure ThoughtDb where
  id : String
  parentId : String
  value : String
  rank : Int
  lastUpdated : Nat
  childrenMap : List (String × String)
deriving DecidableEq, Repr

/-- Modelled from the spec: thoughtToDb from the util module, which is not
part of the source snapshot, projects a thought field by field onto its
database shape, with childrenMap as a plain mapping. -/
def thoughtToDb (t : Thought) : ThoughtDb :=
  { id := t.id, parentId := t.parentId, value := t.value, rank := t.rank,
    lastUpdated := t.lastUpdated, childrenMap := t.childrenMap }

/-- The root map of a thought document, specialized to the thought schema:
each field is present or absent, and childrenMap is stored as a nested
CRDT map from child key to child id. -/
structure ThoughtDoc where
  id : Option String
  parentId : Option String
  value : Option String
  rank : Option Int
  lastUpdated : Option Nat
  childrenMap : Option (List (String × String))
deriving DecidableEq, Repr

/-- A fresh thought document whose root map is empty. -/
def ThoughtDoc.empty : ThoughtDoc :=
  { id := none, parentId := none, value := none, rank := none,
    lastUpdated := none, childrenMap := none }

/-- JavaScript truthiness of a looked-up child id, as tested by the delete
phase of the merge: absent or the empty string is falsy. -/
def lookupFalsy (v : Option String) : Bool :=
  match v with
  | none => true
  | some s => s == ""

/-- Deletion phase of the childrenMap merge in updateThought: delete from
the stored map every entry whose key has no truthy value in the target
mapping. -/
def childrenDeletePhase (old target : List (String × String)) :
    List (String × String) :=
  old.filter (fun e => !(lookupFalsy (target.lookup e.1)))

/-- Addition phase of the childrenMap merge in updateThought: walk the
target entries and set each key that the stored map does not yet have,
keeping the stored value of a key that is already present. -/
def childrenAddPhase (m : List (String × String)) :
    List (String × String) → List (String × String)
  | [] => m
  | (k, v) :: rest =>
    if (m.lookup k).isSome then childrenAddPhase m rest
    else childrenAddPhase (m ++ [(k, v)]) rest

/-- The transact body of updateThought from the source, applied to the
database shape it writes: every scalar key of the projection overwrites
the root map entry, and childrenMap is merged into the nested CRDT map,
created on demand and never replaced wholesale. -/
def writeThought (d : ThoughtDoc) (db : ThoughtDb) : ThoughtDoc :=
  let old := (d.childrenMap).getD []
  { id := some db.id, parentId := some db.parentId, value := some db.value,
    rank := some db.rank, lastUpdated := some db.lastUpdated,
    childrenMap :=
      some (childrenAddPhase (childrenDeletePhase old db.childrenMap)
        db.childrenMap) }

/-- Shape of the childrenMap value in the serialized root map: the
underlying library returns either a nested CRDT map, which still supports
toJSON, or an already serialized plain object. -/
inductive ChildrenVal
  | ymap (entries : List (String × String))
  | plain (entries : List (String × String))
deriving DecidableEq, Repr

/-- Serialized root map of a thought document, childrenMap normalized to a
plain mapping. -/
structure ThoughtJson where
  id : Option String
  parentId : Option String
  value : Option String
  rank : Option Int
  lastUpdated : Option Nat
  childrenMap : List (String × String)
deriving DecidableEq, Repr

/-- Result of getThought: undefined for an empty root map, a thrown
TypeError when the toJSON access on an absent childrenMap fails, or the
projected thought. -/
inductive GetThought
  | undef
  | thrown
  | found (t : ThoughtJson)
deriving DecidableEq, Repr

/-- getThought from the source: undefined when the root map is empty;
otherwise serialize the root map and normalize childrenMap, calling toJSON
when the library returned a nested CRDT map and taking the value as a
plain object otherwise.  The plainShape flag models the library choice of
serialized shape; the toJSON access on an absent childrenMap throws. -/
def getThought (d : ThoughtDoc) (plainShape : Bool) : GetThought :=
  if d = ThoughtDoc.empty then .undef
  else
    match d.childrenMap with
    | none => .thrown
    | some es =>
      let raw : ChildrenVal := if plainShape then .plain es else .ymap es
      .found { id := d.id, parentId := d.parentId, value := d.value,
               rank := d.rank, lastUpdated := d.lastUpdated,
               childrenMap :=
                 match raw with
                 | .ymap l => l
                 | .plain l => l }

/-- Equality of children mappings as plain mappings: every key is bound to
the same child id in both. -/
def entriesEquiv (xs ys : List (String × String)) : Prop :=
  ∀ k, xs.lookup k = ys.lookup k

theorem lookup_filterKey (p : String → Bool) (l : List (String × String))
    (k : String) :
    (l.filter (fun e => p e.1)).lookup k = if p k then l.lookup k else none := by
  induction l with
  | nil => simp
  | cons e rest ih =>
    obtain ⟨a, b⟩ := e
    by_cases hk : k = a
    · subst hk
      by_cases hp : p k <;> simp [List.filter_cons, List.lookup, hp, ih]
    · have hk2 : (k == a) = false := by simp [hk]
      by_cases hp : p a <;> by_cases hpk : p k <;>
        simp [List.filter_cons, List.lookup, hp, hpk, hk2, ih]

theorem lookupAppend {β : Type} (l1 l2 : List (String × β)) (k : String) :
    (l1 ++ l2).lookup k =
      match l1.lookup k with
      | some v => some v
      | none => l2.lookup k := by
  induction l1 with
  | nil => simp [List.lookup]
  | cons e rest ih =>
    obtain ⟨a, b⟩ := e
    by_cases hk : k = a
    · subst hk; simp [List.lookup]
    · have hk2 : (k == a) = false := by simp [hk]
      simp [List.lookup, hk2, ih]

theorem lookup_childrenAddPhase (ts : List (String × String)) :
    ∀ (m : List (String × String)) (k : String),
    (childrenAddPhase m ts).lookup k =
      match m.lookup k with
      | some v => some v
      | none => ts.lookup k := by
  induction ts with
  | nil =>
    intro m k
    cases h : m.lookup k <;> simp [childrenAddPhase, h]
  | cons e rest ih =>
    intro m k
    obtain ⟨k0, v0⟩ := e
    by_cases hm : (m.lookup k0).isSome
    · rw [childrenAddPhase, if_pos hm, ih]
      by_cases hk : k = k0
      · subst hk
        obtain ⟨v, hv⟩ := Option.isSome_iff_exists.mp hm
        simp [hv, List.lookup]
      · have hk2 : (k == k0) = false := by simp [hk]
        cases h : m.lookup k <;> simp [List.lookup, hk2, h]
    · rw [childrenAddPhase, if_neg hm, ih, lookupAppend]
      have hm0 : m.lookup k0 = none := Option.not_isSome_iff_eq_none.mp hm
      by_cases hk : k = k0
      · subst hk
        simp [hm0, List.lookup]
      · have hk2 : (k == k0) = false := by simp [hk]
        cases h : m.lookup k <;> simp [List.lookup, hk2, h]

theorem merged_children_lookup (old target : List (String × String))
    (compat : ∀ k v w, old.lookup k = some v → target.lookup k = some w → v = w)
    (k : String) :
    (childrenAddPhase (childrenDeletePhase old target) target).lookup k =
      target.lookup k := by
  rw [lookup_childrenAddPhase]
  simp only [childrenDeletePhase]
  rw [lookup_filterKey (fun x => !(lookupFalsy (target.lookup x)))]
  cases ht : target.lookup k with
  | none => simp [lookupFalsy, ht]
  | some v =>
    by_cases hv : v = ""
    · subst hv
      simp [lookupFalsy, ht]
    · have hfalsy : lookupFalsy (some v) = false := by simp [lookupFalsy, hv]
      simp only [hfalsy, Bool.not_false, if_true]
      cases ho : old.lookup k with
      | none => simp
      | some w =>
        have := compat k w v ho ht
        subst this
        simp

/-- Claim C7 counterexample: writing a thought into a document whose
stored childrenMap already binds the same child key to a different child
id does not read back as the database projection of the thought, because
the merge keeps the stored value of a key that is already present. -/
theorem C7_codec_roundtrip_counterexample :
    getThought
      (writeThought { ThoughtDoc.empty with childrenMap := some [("k", "c1")] }
        (thoughtToDb { id := "t1", parentId := "p1", value := "v", rank := 0,
                       lastUpdated := 0, childrenMap := [("k", "c2")] })) true =
      .found { id := some "t1", parentId := some "p1", value := some "v",
               rank := some 0, lastUpdated := some 0,
               childrenMap := [("k", "c1")] } ∧
    (thoughtToDb { id := "t1", parentId := "p1", value := "v", rank := 0,
                   lastUpdated := 0, childrenMap := [("k", "c2")] }).childrenMap
      = [("k", "c2")] ∧
    ¬ entriesEquiv [("k", "c1")] [("k", "c2")] := by
  refine ⟨by decide, by decide, fun h => ?_⟩
  have := h "k"
  simp [List.lookup] at this

/-- Claim C7 amended: for every thought t and every document whose stored
childrenMap agrees with the childrenMap of t on every shared key, writing
t with the updateThought transact body and reading back with getThought
yields exactly the database projection of t, field by field, with
childrenMap compared as a plain mapping; moreover getThought returns
undefined exactly on the empty root map, and normalizes childrenMap to the
same plain mapping whether the library serialized it as a nested CRDT map
or as a plain object. -/
theorem C7_codec_roundtrip_amended (d : ThoughtDoc) (t : Thought) (ps : Bool)
    (compat : ∀ k v w, (d.childrenMap.getD []).lookup k = some v →
      t.childrenMap.lookup k = some w → v = w) :
    (∃ cm,
      getThought (writeThought d (thoughtToDb t)) ps =
        .found { id := some t.id, parentId := some t.parentId,
                 value := some t.value, rank := some t.rank,
                 lastUpdated := some t.lastUpdated, childrenMap := cm } ∧
      entriesEquiv cm (thoughtToDb t).childrenMap) ∧
    (∀ b, getThought ThoughtDoc.empty b = .undef) ∧
    (∀ d2 b1 b2, getThought d2 b1 = getThought d2 b2) := by
  refine ⟨⟨childrenAddPhase
      (childrenDeletePhase (d.childrenMap.getD []) (thoughtToDb t).childrenMap)
      (thoughtToDb t).childrenMap, ?_, ?_⟩, ?_, ?_⟩
  · have hne : writeThought d (thoughtToDb t) ≠ ThoughtDoc.empty := by
      simp [writeThought, ThoughtDoc.empty]
    rw [getThought, if_neg hne]
    cases ps <;> simp [writeThought, thoughtToDb]
  · intro k
    exact merged_children_lookup _ _ (by simpa [thoughtToDb] using compat) k
  · intro b
    simp [getThought]
  · intro d2 b1 b2
    by_cases he : d2 = ThoughtDoc.empty
    · simp [getThought, he]
    · cases hc : d2.childrenMap <;> cases b1 <;> cases b2 <;>
        simp [getThought, he, hc]

/-- Concrete instantiation of the amended C7 theorem at a fresh document. -/
theorem C7_codec_roundtrip_amended_witness :
    (∀ k v w, ((ThoughtDoc.empty).childrenMap.getD []).lookup k = some v →
      ([("k1", "c1")] : List (String × String)).lookup k = some w → v = w) ∧
    ((∃ cm,
      getThought (writeThought ThoughtDoc.empty
        (thoughtToDb { id := "t1", parentId := "p1", value := "v", rank := 0,
                       lastUpdated := 0, childrenMap := [("k1", "c1")] })) true =
        .found { id := some "t1", parentId := some "p1",
                 value := some "v", rank := some 0,
                 lastUpdated := some 0, childrenMap := cm } ∧
      entriesEquiv cm
        (thoughtToDb { id := "t1", parentId := "p1", value := "v", rank := 0,
                       lastUpdated := 0,
                       childrenMap := [("k1", "c1")] }).childrenMap) ∧
    (∀ b, getThought ThoughtDoc.empty b = .undef) ∧
    (∀ d2 b1 b2, getThought d2 b1 = getThought d2 b2)) :=
  ⟨fun k v w h => by simp [ThoughtDoc.empty] at h,
    C7_codec_roundtrip_amended ThoughtDoc.empty
      { id := "t1", parentId := "p1", value := "v", rank := 0,
        lastUpdated := 0, childrenMap := [("k1", "c1")] } true
      (fun k v w h => by simp [ThoughtDoc.empty] at h)⟩

/-- Modelled from the spec: HOME_TOKEN, the opaque id of the root thought,
comes from the constants module, which is not part of the source
snapshot. -/
def HOME_TOKEN : String := "__ROOT__"

/-- The promise-on-demand gate: resolving keeps the first delivered value,
so an already resolved promise ignores later resolutions. -/
def resolveOnce {α : Type} (gate : Option α) (v : α) : Option α :=
  match gate with
  | some w => some w
  | none => some v

/-- The continuation of replicateThought after its local persistence sync
completes: when the replicated id is the home token, resolve the root gate
with the serialization of the root map of the registered home document, or
with undefined when none is registered; the document content is not
inspected. -/
def afterRootSync (docs : List (String × ThoughtDoc))
    (gate : Option (Option ThoughtDoc)) (id : String) :
    Option (Option ThoughtDoc) :=
  if id = HOME_TOKEN then resolveOnce gate (docs.lookup HOME_TOKEN) else gate

/-- The root gate after a sequence of completed replicateThought syncs. -/
def runRootSyncs (docs : List (String × ThoughtDoc))
    (gate : Option (Option ThoughtDoc)) :
    List String → Option (Option ThoughtDoc)
  | [] => gate
  | id :: rest => runRootSyncs docs (afterRootSync docs gate id) rest

/-- Claim C3 counterexample: the first completed sync of the home thought
resolves the root gate even though the home document is empty; the source
performs no non-emptiness check before resolving, and the carried value is
the serialization of the empty root map rather than a projected thought. -/
theorem C3_rootSynced_counterexample :
    runRootSyncs [(HOME_TOKEN, ThoughtDoc.empty)] none [HOME_TOKEN] =
      some (some ThoughtDoc.empty) ∧
    getThought ThoughtDoc.empty true = .undef := by
  exact ⟨by decide, rfl⟩

theorem runRootSyncs_resolved (docs : List (String × ThoughtDoc))
    (v : Option ThoughtDoc) (evs : List String) :
    runRootSyncs docs (some v) evs = some v := by
  induction evs with
  | nil => rfl
  | cons id rest ih =>
    by_cases h : id = HOME_TOKEN <;>
      simp [runRootSyncs, afterRootSync, resolveOnce, h, ih]

/-- Claim C3 amended: across arbitrarily many completed replicateThought
syncs, the root gate is resolved exactly once, namely at the first
completed local-persistence sync for the home token, whether or not the
document is empty, and it carries the serialization of the registered home
document; syncs of other ids never resolve it. -/
theorem C3_rootSynced_amended (docs : List (String × ThoughtDoc))
    (evs : List String) :
    runRootSyncs docs none evs =
      if HOME_TOKEN ∈ evs then some (docs.lookup HOME_TOKEN) else none := by
  induction evs with
  | nil => simp [runRootSyncs]
  | cons id rest ih =>
    by_cases h : id = HOME_TOKEN
    · subst h
      simp [runRootSyncs, afterRootSync, resolveOnce, runRootSyncs_resolved]
    · have h2 : ¬ (HOME_TOKEN = id) := fun he => h he.symm
      simp [runRootSyncs, afterRootSync, h, h2, ih, List.mem_cons]

/-- The surviving entries of a reversed delta: the first occurrence of
each key, in newest-first order. -/
def dedupEntries : List LogEntry → List String → List LogEntry
  | [], _ => []
  | (k, a) :: rest, seen =>
    if k ∈ seen then dedupEntries rest seen
    else (k, a) :: dedupEntries rest (k :: seen)

/-- Effects performed by the lexemeLog observer. -/
inductive LexEffect
  | queueSubmit (tasks : List LogEntry)
  | replicateLexemeCall (key : String)
  | dispatchNullLexeme (key : String)
  | deleteLexemeCall (key : String)
deriving DecidableEq, Repr

/-- Whether an effect is a submission to the replication TaskQueue. -/
def LexEffect.isQueueSubmit : LexEffect → Bool
  | .queueSubmit _ => true
  | _ => false

/-- The direct handling of one surviving lexeme entry in the source:
replicate on Update, or dispatch a null state update and delete on
Delete. -/
def directLexEffects : LogEntry → List LexEffect
  | (key, .Update) => [.replicateLexemeCall key]
  | (key, .Delete) => [.dispatchNullLexeme key, .deleteLexemeCall key]

/-- The forEach body of lexemeLog.observe from the source: skip keys
already traversed, otherwise act on the entry directly. -/
def lexemeForEach : List LogEntry → List String → List LexEffect
  | [], _ => []
  | (key, a) :: rest, seen =>
    if key ∈ seen then lexemeForEach rest seen
    else
      (match a with
       | DocLogAction.Update => [LexEffect.replicateLexemeCall key]
       | DocLogAction.Delete =>
           [LexEffect.dispatchNullLexeme key, LexEffect.deleteLexemeCall key])
        ++ lexemeForEach rest (key :: seen)

/-- Embedding of lexemeLog.observe from the source: ignore events whose
origin is the doclog client itself, flatten to the inserted entries,
reverse so newer entries come first, and act on each surviving key
directly. -/
def lexemeLogObserve (clientID origin : Nat) (inserts : List LogEntry) :
    List LexEffect :=
  if origin = clientID then []
  else lexemeForEach inserts.reverse []

/-- The lexeme observer as the words of the claim describe it: the same
algorithm as the thought observer, building one task per surviving entry
and submitting the non-null task list to the replication TaskQueue. -/
def lexemeLogObserveClaimed (clientID origin : Nat) (inserts : List LogEntry) :
    List LexEffect :=
  if origin = clientID then []
  else [LexEffect.queueSubmit (dedupEntries inserts.reverse [])]

/-- Claim C4 counterexample: on a remote insertion burst of one Update
entry the lexeme observer calls replicateLexeme directly and submits
nothing to the replication TaskQueue, differing from the queue-submitting
algorithm the claim describes. -/
theorem C4_lexeme_observer_counterexample :
    lexemeLogObserve 0 1 [("k", .Update)] = [.replicateLexemeCall "k"] ∧
    lexemeLogObserveClaimed 0 1 [("k", .Update)] =
      [.queueSubmit [("k", .Update)]] ∧
    lexemeLogObserve 0 1 [("k", .Update)] ≠
      lexemeLogObserveClaimed 0 1 [("k", .Update)] ∧
    ∀ e ∈ lexemeLogObserve 0 1 [("k", .Update)], e.isQueueSubmit = false := by
  refine ⟨by decide, by decide, by decide, by decide⟩

theorem observeTaskOpts_reduceOption (xs : List LogEntry) :
    ∀ seen, (observeTaskOpts xs seen).reduceOption =
      (dedupEntries xs seen).map taskOf := by
  induction xs with
  | nil => intro seen; rfl
  | cons e rest ih =>
    intro seen
    obtain ⟨k, a⟩ := e
    by_cases hk : k ∈ seen <;>
      simp [observeTaskOpts, dedupEntries, hk, List.reduceOption] <;>
      simpa [List.reduceOption] using ih _

theorem lexemeForEach_eq_dedup (xs : List LogEntry) :
    ∀ seen, lexemeForEach xs seen =
      (dedupEntries xs seen).flatMap directLexEffects := by
  induction xs with
  | nil => intro seen; rfl
  | cons e rest ih =>
    intro seen
    obtain ⟨k, a⟩ := e
    by_cases hk : k ∈ seen
    · simp [lexemeForEach, dedupEntries, hk, ih]
    · cases a <;> simp [lexemeForEach, dedupEntries, hk, ih, directLexEffects]

/-- Claim C4 amended: the lexeme observer applies exactly the same
flatten, reverse and deduplicate-by-key selection of surviving entries as
the thought observer, and handles Update by replicateLexeme and Delete by
a null dispatch followed by deleteLexeme, but it invokes these directly on
each surviving entry instead of building tasks and submitting them to the
replication TaskQueue, so no queue submission is emitted and lexeme
replication progress is not reported through the push progress sink. -/
theorem C4_lexeme_observer_amended (clientID origin : Nat)
    (inserts : List LogEntry) (ho : origin ≠ clientID) :
    thoughtLogObserve clientID origin inserts =
      (dedupEntries inserts.reverse []).map taskOf ∧
    lexemeLogObserve clientID origin inserts =
      (dedupEntries inserts.reverse []).flatMap directLexEffects ∧
    ∀ e ∈ lexemeLogObserve clientID origin inserts,
      e.isQueueSubmit = false := by
  refine ⟨?_, ?_, ?_⟩
  · rw [thoughtLogObserve, if_neg ho, observeTaskOpts_reduceOption]
  · rw [lexemeLogObserve, if_neg ho, lexemeForEach_eq_dedup]
  · intro e he
    rw [lexemeLogObserve, if_neg ho, lexemeForEach_eq_dedup] at he
    obtain ⟨entry, _, hmem⟩ := List.mem_flatMap.mp he
    obtain ⟨k, a⟩ := entry
    cases a <;> simp [directLexEffects] at hmem <;>
      rcases hmem with rfl | rfl <;> rfl

/-- Concrete instantiation of the amended C4 theorem. -/
theorem C4_lexeme_observer_amended_witness :
    (1 : Nat) ≠ 0 ∧
    (thoughtLogObserve 0 1 [("k", .Update), ("j", .Delete)] =
      (dedupEntries ([("k", .Update), ("j", .Delete)] : List LogEntry).reverse
        []).map taskOf ∧
    lexemeLogObserve 0 1 [("k", .Update), ("j", .Delete)] =
      (dedupEntries ([("k", .Update), ("j", .Delete)] : List LogEntry).reverse
        []).flatMap directLexEffects ∧
    ∀ e ∈ lexemeLogObserve 0 1 [("k", .Update), ("j", .Delete)],
      e.isQueueSubmit = false) :=
  ⟨by decide, C4_lexeme_observer_amended 0 1 [("k", .Update), ("j", .Delete)]
    (by decide)⟩

/-- Modelled from the spec: tsid, the opaque workspace identifier from the
yjs data-provider module, which is not part of the source snapshot. -/
def tsid : String := "ts1"

/-- Modelled from the spec: encodeThoughtDocumentName from the
documentNameEncoder module, which is not part of the source snapshot; the
spec fixes the format workspace/thought/id. -/
def encodeThoughtDocumentName (ws id : String) : String :=
  ws ++ "/thought/" ++ id

/-- Modelled from the spec: encodeLexemeDocumentName from the
documentNameEncoder module, which is not part of the source snapshot; the
spec fixes the format workspace/lexeme/key. -/
def encodeLexemeDocumentName (ws key : String) : String :=
  ws ++ "/lexeme/" ++ key

/-- Observable effects of the replication operations. -/
inductive DelEffect
  | enqueueKey (k : String)
  | unobserveKey (k : String)
  | destroyDoc (k : String)
  | removeRegistry (k : String)
  | dropDb (name : String)
  | alertError (msg : String)
  | dequeueKey (k : String)
deriving DecidableEq, Repr

/-- A settled promise together with the effects its computation performed,
in order. -/
structure PromiseR (α : Type) where
  effects : List DelEffect
  result : Except String α
deriving Repr

/-- deleteDB from the source: drop the backing local database by name; the
request either succeeds or fails. -/
def deleteDBp (name : String) (ok : Bool) : PromiseR Unit :=
  { effects := [.dropDb name],
    result := if ok then .ok () else .error "DeleteDatabaseFailure" }

/-- A catch handler that reports the error through a dispatcher alert and
swallows it, settling the promise successfully. -/
def catchAlert (msg : String) (p : PromiseR Unit) : PromiseR Unit :=
  match p.result with
  | .ok _ => p
  | .error _ => { effects := p.effects ++ [.alertError msg], result := .ok () }

/-- A finally handler that dequeues the key on the success and the failure
path alike, preserving the settled result. -/
def finallyDequeue (k : String) (p : PromiseR Unit) : PromiseR Unit :=
  { effects := p.effects ++ [.dequeueKey k], result := p.result }

/-- deleteThought from the source: enqueue the id, unobserve and destroy
the registered document, remove the registry entries, then drop the
backing database by name, alerting and swallowing a failure, and dequeue
in a finalizer. -/
def deleteThought (id : String) (dbOk : Bool) : PromiseR Unit :=
  let p := finallyDequeue id
    (catchAlert "Error deleting thought"
      (deleteDBp (encodeThoughtDocumentName tsid id) dbOk))
  { effects := [.enqueueKey id, .unobserveKey id, .destroyDoc id,
      .removeRegistry id] ++ p.effects,
    result := p.result }

/-- deleteLexeme from the source, symmetric to deleteThought; the alert
message in the source is the same string as in deleteThought. -/
def deleteLexeme (key : String) (dbOk : Bool) : PromiseR Unit :=
  let p := finallyDequeue key
    (catchAlert "Error deleting thought"
      (deleteDBp (encodeLexemeDocumentName tsid key) dbOk))
  { effects := [.enqueueKey key, .unobserveKey key, .destroyDoc key,
      .removeRegistry key] ++ p.effects,
    result := p.result }

/-- Claim C8: deleteThought and deleteLexeme settle successfully for both
outcomes of dropping the backing database: the returned future never
rejects, a database failure is reported via a dispatcher alert and
swallowed, and the key is dequeued last, in a finalizer, on the success
and the failure path alike. -/
theorem C8_delete_never_rejects (id key : String) (dbOk : Bool) :
    (deleteThought id dbOk).result = .ok () ∧
    (deleteThought id dbOk).effects.getLast? = some (.dequeueKey id) ∧
    (DelEffect.alertError "Error deleting thought" ∈ (deleteThought id dbOk).effects
      ↔ dbOk = false) ∧
    (deleteLexeme key dbOk).result = .ok () ∧
    (deleteLexeme key dbOk).effects.getLast? = some (.dequeueKey key) ∧
    (DelEffect.alertError "Error deleting thought" ∈ (deleteLexeme key dbOk).effects
      ↔ dbOk = false) := by
  cases dbOk <;>
    simp [deleteThought, deleteLexeme, finallyDequeue, catchAlert, deleteDBp]

/-- A lexeme, reduced to the field set the claims exercise. -/
structure Lexeme where
  contexts : List String
deriving DecidableEq, Repr

/-- A doclog transaction as observable by remote peers: its origin and the
two entry lists pushed inside it. -/
structure DocLogTxn where
  origin : Nat
  thoughtPush : List LogEntry
  lexemePush : List LogEntry
deriving DecidableEq, Repr

/-- Process-wide state of the replication engine: the doclog client id,
the two document registries, the two doclog arrays, the doclog
transactions, and the effect trace. -/
structure Engine where
  clientID : Nat
  thoughtDocs : List (String × ThoughtDoc)
  lexemeDocs : List (String × Lexeme)
  thoughtLog : List LogEntry
  lexemeLog : List LogEntry
  txns : List DocLogTxn
  effects : List DelEffect
deriving Repr

/-- The synchronous prefix of replicateThought from the source: when the
id is not yet registered, install a fresh empty document, its providers
and its observer, before the first suspension point. -/
def replicateThoughtInstall (id : String) (e : Engine) : Engine :=
  if (e.thoughtDocs.lookup id).isSome then e
  else { e with thoughtDocs := e.thoughtDocs ++ [(id, ThoughtDoc.empty)] }

/-- The synchronous prefix of replicateLexeme from the source, symmetric
to replicateThoughtInstall. -/
def replicateLexemeInstall (key : String) (e : Engine) : Engine :=
  if (e.lexemeDocs.lookup key).isSome then e
  else { e with lexemeDocs := e.lexemeDocs ++ [(key, { contexts := [] })] }

/-- The registry entry updateThought dereferences: after the conditional,
unawaited replicateThought call, the document registered under the id. -/
def updateThoughtTarget (id : String) (e : Engine) : Option ThoughtDoc :=
  let e1 := if (e.thoughtDocs.lookup id).isSome then e
    else replicateThoughtInstall id e
  e1.thoughtDocs.lookup id

/-- The registry entry updateLexeme dereferences, symmetric to
updateThoughtTarget. -/
def updateLexemeTarget (key : String) (e : Engine) : Option Lexeme :=
  let e1 := if (e.lexemeDocs.lookup key).isSome then e
    else replicateLexemeInstall key e
  e1.lexemeDocs.lookup key

/-- Replace the document registered under an id. -/
def setThoughtDoc (id : String) (d : ThoughtDoc)
    (docs : List (String × ThoughtDoc)) : List (String × ThoughtDoc) :=
  docs.map (fun p => if p.1 = id then (id, d) else p)

/-- updateThought from the source: ensure the document exists through the
synchronous prefix of replicateThought, enqueue the id, and transact the
database shape into the document through the entity codec.  A missing
registry entry after the conditional replicate call would be a failed
dereference and is modelled as leaving the engine unchanged; the safety
claim shows the branch is unreachable. -/
def updateThoughtE (id : String) (db : ThoughtDb) (e : Engine) : Engine :=
  let e1 := if (e.thoughtDocs.lookup id).isSome then e
    else replicateThoughtInstall id e
  match e1.thoughtDocs.lookup id with
  | none => e1
  | some d =>
    { e1 with
      thoughtDocs := setThoughtDoc id (writeThought d db) e1.thoughtDocs,
      effects := e1.effects ++ [.enqueueKey id] }

/-- updateLexeme from the source: ensure the lexeme document exists
through the synchronous prefix of replicateLexeme and enqueue the key;
the lexeme document content is not modelled. -/
def updateLexemeE (key : String) (e : Engine) : Engine :=
  let e1 := if (e.lexemeDocs.lookup key).isSome then e
    else replicateLexemeInstall key e
  match e1.lexemeDocs.lookup key with
  | none => e1
  | some _ => { e1 with effects := e1.effects ++ [.enqueueKey key] }

/-- deleteThought from the source acting on the engine: remove the
registry entry and record the effect trace of the deletion on the
successful database outcome; claim C8 covers the failure path. -/
def deleteThoughtE (id : String) (e : Engine) : Engine :=
  { e with
    thoughtDocs := e.thoughtDocs.filter (fun p => !(p.1 == id)),
    effects := e.effects ++ (deleteThought id true).effects }

/-- deleteLexeme from the source acting on the engine, symmetric to
deleteThoughtE. -/
def deleteLexemeE (key : String) (e : Engine) : Engine :=
  { e with
    lexemeDocs := e.lexemeDocs.filter (fun p => !(p.1 == key)),
    effects := e.effects ++ (deleteLexeme key true).effects }

/-- Build the per-entity log entries of an update map, in input order:
Update for a present value, Delete for null. -/
def buildLogs {τ : Type} (updates : List (String × Option τ)) : List LogEntry :=
  updates.map (fun p =>
    (p.1, if p.2.isSome then DocLogAction.Update else DocLogAction.Delete))

/-- The head trim in updateThoughts: when the first new entry is
structurally equal to the current tail of the doclog array, shift it
off. -/
def trimHead (log newLogs : List LogEntry) : List LogEntry :=
  if newLogs.head? = log.getLast? then newLogs.tail else newLogs

/-- The update phase of updateThoughts: write every non-null thought
through updateThought, in input order. -/
def applyThoughtUpdates (tu : List (String × Option ThoughtDb)) (e : Engine) :
    Engine :=
  (tu.filterMap (fun p => p.2.map (fun v => (p.1, v)))).foldl
    (fun (acc : Engine) (p : String × ThoughtDb) => updateThoughtE p.1 p.2 acc) e

/-- The update phase of updateThoughts for lexemes. -/
def applyLexemeUpdates (lu : List (String × Option Lexeme)) (e : Engine) :
    Engine :=
  (lu.filterMap (fun p => p.2.map (fun _ => p.1))).foldl
    (fun (acc : Engine) (k : String) => updateLexemeE k acc) e

/-- The doclog phase of updateThoughts: append the trimmed per-entity logs
to both arrays inside a single transaction originated with the doclog
client id. -/
def applyDocLogTxn (tu : List (String × Option ThoughtDb))
    (lu : List (String × Option Lexeme)) (e : Engine) : Engine :=
  let tLogs := trimHead e.thoughtLog (buildLogs tu)
  let lLogs := trimHead e.lexemeLog (buildLogs lu)
  { e with
    thoughtLog := e.thoughtLog ++ tLogs,
    lexemeLog := e.lexemeLog ++ lLogs,
    txns := e.txns ++
      [{ origin := e.clientID, thoughtPush := tLogs, lexemePush := lLogs }] }

/-- The delete phase of updateThoughts for thoughts: fire deleteThought
for every null entry. -/
def applyThoughtDeletes (tu : List (String × Option ThoughtDb)) (e : Engine) :
    Engine :=
  ((tu.filter (fun p => p.2.isNone)).map Prod.fst).foldl
    (fun (acc : Engine) (i : String) => deleteThoughtE i acc) e

/-- The delete phase of updateThoughts for lexemes. -/
def applyLexemeDeletes (lu : List (String × Option Lexeme)) (e : Engine) :
    Engine :=
  ((lu.filter (fun p => p.2.isNone)).map Prod.fst).foldl
    (fun (acc : Engine) (k : String) => deleteLexemeE k acc) e

/-- updateThoughts from the source: partition each input map into updates
and deletes, write the updates, append the trimmed logs in one doclog
transaction, and fire the deletes. -/
def updateThoughtsE (tu : List (String × Option ThoughtDb))
    (lu : List (String × Option Lexeme)) (e : Engine) : Engine :=
  applyLexemeDeletes lu (applyThoughtDeletes tu (applyDocLogTxn tu lu
    (applyLexemeUpdates lu (applyThoughtUpdates tu e))))

theorem foldl_preserves {α β : Type} (g : Engine → β) (f : Engine → α → Engine)
    (hf : ∀ e a, g (f e a) = g e) (l : List α) :
    ∀ e, g (l.foldl f e) = g e := by
  induction l with
  | nil => intro e; rfl
  | cons a rest ih => intro e; rw [List.foldl_cons, ih, hf]

theorem updateThoughtE_doclogFields (id : String) (db : ThoughtDb) (e : Engine) :
    (updateThoughtE id db e).clientID = e.clientID ∧
    (updateThoughtE id db e).thoughtLog = e.thoughtLog ∧
    (updateThoughtE id db e).lexemeLog = e.lexemeLog ∧
    (updateThoughtE id db e).txns = e.txns ∧
    (updateThoughtE id db e).lexemeDocs = e.lexemeDocs := by
  unfold updateThoughtE replicateThoughtInstall
  by_cases h : (e.thoughtDocs.lookup id).isSome
  · simp only [h, if_true]
    rcases hq : e.thoughtDocs.lookup id with _ | d <;> simp [hq]
  · simp only [h, if_false]
    rcases hq : (e.thoughtDocs ++ [(id, ThoughtDoc.empty)]).lookup id
      with _ | d <;> simp [hq]

theorem updateLexemeE_doclogFields (key : String) (e : Engine) :
    (updateLexemeE key e).clientID = e.clientID ∧
    (updateLexemeE key e).thoughtLog = e.thoughtLog ∧
    (updateLexemeE key e).lexemeLog = e.lexemeLog ∧
    (updateLexemeE key e).txns = e.txns ∧
    (updateLexemeE key e).thoughtDocs = e.thoughtDocs := by
  unfold updateLexemeE replicateLexemeInstall
  by_cases h : (e.lexemeDocs.lookup key).isSome
  · simp only [h, if_true]
    rcases hq : e.lexemeDocs.lookup key with _ | v <;> simp [hq]
  · simp only [h, if_false]
    rcases hq : (e.lexemeDocs ++ [(key, Lexeme.mk [])]).lookup key
      with _ | v <;> simp [hq]

theorem deleteThoughtE_doclogFields (id : String) (e : Engine) :
    (deleteThoughtE id e).clientID = e.clientID ∧
    (deleteThoughtE id e).thoughtLog = e.thoughtLog ∧
    (deleteThoughtE id e).lexemeLog = e.lexemeLog ∧
    (deleteThoughtE id e).txns = e.txns ∧
    (deleteThoughtE id e).lexemeDocs = e.lexemeDocs := by
  exact ⟨rfl, rfl, rfl, rfl, rfl⟩

theorem deleteLexemeE_doclogFields (key : String) (e : Engine) :
    (deleteLexemeE key e).clientID = e.clientID ∧
    (deleteLexemeE key e).thoughtLog = e.thoughtLog ∧
    (deleteLexemeE key e).lexemeLog = e.lexemeLog ∧
    (deleteLexemeE key e).txns = e.txns ∧
    (deleteLexemeE key e).thoughtDocs = e.thoughtDocs := by
  exact ⟨rfl, rfl, rfl, rfl, rfl⟩

theorem applyThoughtUpdates_doclogFields (tu : List (String × Option ThoughtDb))
    (e : Engine) :
    (applyThoughtUpdates tu e).clientID = e.clientID ∧
    (applyThoughtUpdates tu e).thoughtLog = e.thoughtLog ∧
    (applyThoughtUpdates tu e).lexemeLog = e.lexemeLog ∧
    (applyThoughtUpdates tu e).txns = e.txns ∧
    (applyThoughtUpdates tu e).lexemeDocs = e.lexemeDocs := by
  unfold applyThoughtUpdates
  exact ⟨foldl_preserves Engine.clientID (fun (acc : Engine) (p : String × ThoughtDb) => updateThoughtE p.1 p.2 acc)
      (fun e2 p => (updateThoughtE_doclogFields p.1 p.2 e2).1) _ e,
    foldl_preserves Engine.thoughtLog (fun (acc : Engine) (p : String × ThoughtDb) => updateThoughtE p.1 p.2 acc)
      (fun e2 p => (updateThoughtE_doclogFields p.1 p.2 e2).2.1) _ e,
    foldl_preserves Engine.lexemeLog (fun (acc : Engine) (p : String × ThoughtDb) => updateThoughtE p.1 p.2 acc)
      (fun e2 p => (updateThoughtE_doclogFields p.1 p.2 e2).2.2.1) _ e,
    foldl_preserves Engine.txns (fun (acc : Engine) (p : String × ThoughtDb) => updateThoughtE p.1 p.2 acc)
      (fun e2 p => (updateThoughtE_doclogFields p.1 p.2 e2).2.2.2.1) _ e,
    foldl_preserves Engine.lexemeDocs (fun (acc : Engine) (p : String × ThoughtDb) => updateThoughtE p.1 p.2 acc)
      (fun e2 p => (updateThoughtE_doclogFields p.1 p.2 e2).2.2.2.2) _ e⟩

theorem applyLexemeUpdates_doclogFields (lu : List (String × Option Lexeme))
    (e : Engine) :
    (applyLexemeUpdates lu e).clientID = e.clientID ∧
    (applyLexemeUpdates lu e).thoughtLog = e.thoughtLog ∧
    (applyLexemeUpdates lu e).lexemeLog = e.lexemeLog ∧
    (applyLexemeUpdates lu e).txns = e.txns ∧
    (applyLexemeUpdates lu e).thoughtDocs = e.thoughtDocs := by
  unfold applyLexemeUpdates
  exact ⟨foldl_preserves Engine.clientID (fun (acc : Engine) (k : String) => updateLexemeE k acc)
      (fun e2 k => (updateLexemeE_doclogFields k e2).1) _ e,
    foldl_preserves Engine.thoughtLog (fun (acc : Engine) (k : String) => updateLexemeE k acc)
      (fun e2 k => (updateLexemeE_doclogFields k e2).2.1) _ e,
    foldl_preserves Engine.lexemeLog (fun (acc : Engine) (k : String) => updateLexemeE k acc)
      (fun e2 k => (updateLexemeE_doclogFields k e2).2.2.1) _ e,
    foldl_preserves Engine.txns (fun (acc : Engine) (k : String) => updateLexemeE k acc)
      (fun e2 k => (updateLexemeE_doclogFields k e2).2.2.2.1) _ e,
    foldl_preserves Engine.thoughtDocs (fun (acc : Engine) (k : String) => updateLexemeE k acc)
      (fun e2 k => (updateLexemeE_doclogFields k e2).2.2.2.2) _ e⟩

theorem applyThoughtDeletes_doclogFields (tu : List (String × Option ThoughtDb))
    (e : Engine) :
    (applyThoughtDeletes tu e).clientID = e.clientID ∧
    (applyThoughtDeletes tu e).thoughtLog = e.thoughtLog ∧
    (applyThoughtDeletes tu e).lexemeLog = e.lexemeLog ∧
    (applyThoughtDeletes tu e).txns = e.txns ∧
    (applyThoughtDeletes tu e).lexemeDocs = e.lexemeDocs := by
  unfold applyThoughtDeletes
  exact ⟨foldl_preserves Engine.clientID (fun (acc : Engine) (i : String) => deleteThoughtE i acc)
      (fun e2 i => (deleteThoughtE_doclogFields i e2).1) _ e,
    foldl_preserves Engine.thoughtLog (fun (acc : Engine) (i : String) => deleteThoughtE i acc)
      (fun e2 i => (deleteThoughtE_doclogFields i e2).2.1) _ e,
    foldl_preserves Engine.lexemeLog (fun (acc : Engine) (i : String) => deleteThoughtE i acc)
      (fun e2 i => (deleteThoughtE_doclogFields i e2).2.2.1) _ e,
    foldl_preserves Engine.txns (fun (acc : Engine) (i : String) => deleteThoughtE i acc)
      (fun e2 i => (deleteThoughtE_doclogFields i e2).2.2.2.1) _ e,
    foldl_preserves Engine.lexemeDocs (fun (acc : Engine) (i : String) => deleteThoughtE i acc)
      (fun e2 i => (deleteThoughtE_doclogFields i e2).2.2.2.2) _ e⟩

theorem applyLexemeDeletes_doclogFields (lu : List (String × Option Lexeme))
    (e : Engine) :
    (applyLexemeDeletes lu e).clientID = e.clientID ∧
    (applyLexemeDeletes lu e).thoughtLog = e.thoughtLog ∧
    (applyLexemeDeletes lu e).lexemeLog = e.lexemeLog ∧
    (applyLexemeDeletes lu e).txns = e.txns ∧
    (applyLexemeDeletes lu e).thoughtDocs = e.thoughtDocs := by
  unfold applyLexemeDeletes
  exact ⟨foldl_preserves Engine.clientID (fun (acc : Engine) (k : String) => deleteLexemeE k acc)
      (fun e2 k => (deleteLexemeE_doclogFields k e2).1) _ e,
    foldl_preserves Engine.thoughtLog (fun (acc : Engine) (k : String) => deleteLexemeE k acc)
      (fun e2 k => (deleteLexemeE_doclogFields k e2).2.1) _ e,
    foldl_preserves Engine.lexemeLog (fun (acc : Engine) (k : String) => deleteLexemeE k acc)
      (fun e2 k => (deleteLexemeE_doclogFields k e2).2.2.1) _ e,
    foldl_preserves Engine.txns (fun (acc : Engine) (k : String) => deleteLexemeE k acc)
      (fun e2 k => (deleteLexemeE_doclogFields k e2).2.2.2.1) _ e,
    foldl_preserves Engine.thoughtDocs (fun (acc : Engine) (k : String) => deleteLexemeE k acc)
      (fun e2 k => (deleteLexemeE_doclogFields k e2).2.2.2.2) _ e⟩

theorem trimHead_cons (log : List LogEntry) (en : LogEntry) (es : List LogEntry) :
    (trimHead log (en :: es) = es ↔ log.getLast? = some en) ∧
    (trimHead log (en :: es) = en :: es ↔ ¬ log.getLast? = some en) := by
  rw [trimHead, List.head?_cons, List.tail_cons]
  by_cases h : (some en = log.getLast?)
  · rw [if_pos h]
    exact ⟨iff_of_true rfl h.symm,
      iff_of_false (fun hc => (List.cons_ne_self en es) hc.symm)
        (fun hn => hn h.symm)⟩
  · rw [if_neg h]
    exact ⟨iff_of_false (List.cons_ne_self en es) (fun hg => h hg.symm),
      iff_of_true rfl (fun hg => h hg.symm)⟩

/-- Claim C2: updateThoughts builds the per-entity log entries for every
id present in the input, in input order, tagging Update for a present
value and Delete for null; the first entry is dropped if and only if it is
structurally equal to the current tail of the corresponding doclog array;
and the remaining entries are appended to thoughtLog and lexemeLog inside
a single doclog transaction whose origin is the doclog client id. -/
theorem C2_updateThoughts_doclog (tu : List (String × Option ThoughtDb))
    (lu : List (String × Option Lexeme)) (e : Engine) :
    buildLogs tu = tu.map (fun p =>
      (p.1, if p.2.isSome then DocLogAction.Update else DocLogAction.Delete)) ∧
    (updateThoughtsE tu lu e).thoughtLog =
      e.thoughtLog ++ trimHead e.thoughtLog (buildLogs tu) ∧
    (updateThoughtsE tu lu e).lexemeLog =
      e.lexemeLog ++ trimHead e.lexemeLog (buildLogs lu) ∧
    (updateThoughtsE tu lu e).txns = e.txns ++
      [{ origin := e.clientID,
         thoughtPush := trimHead e.thoughtLog (buildLogs tu),
         lexemePush := trimHead e.lexemeLog (buildLogs lu) }] ∧
    (∀ en es, buildLogs tu = en :: es →
      (trimHead e.thoughtLog (buildLogs tu) = es ↔
        e.thoughtLog.getLast? = some en) ∧
      (trimHead e.thoughtLog (buildLogs tu) = en :: es ↔
        ¬ e.thoughtLog.getLast? = some en)) ∧
    (∀ en es, buildLogs lu = en :: es →
      (trimHead e.lexemeLog (buildLogs lu) = es ↔
        e.lexemeLog.getLast? = some en) ∧
      (trimHead e.lexemeLog (buildLogs lu) = en :: es ↔
        ¬ e.lexemeLog.getLast? = some en)) := by
  have htl : (applyLexemeUpdates lu (applyThoughtUpdates tu e)).thoughtLog =
      e.thoughtLog :=
    (applyLexemeUpdates_doclogFields lu _).2.1.trans
      (applyThoughtUpdates_doclogFields tu e).2.1
  have hll : (applyLexemeUpdates lu (applyThoughtUpdates tu e)).lexemeLog =
      e.lexemeLog :=
    (applyLexemeUpdates_doclogFields lu _).2.2.1.trans
      (applyThoughtUpdates_doclogFields tu e).2.2.1
  have hcid : (applyLexemeUpdates lu (applyThoughtUpdates tu e)).clientID =
      e.clientID :=
    (applyLexemeUpdates_doclogFields lu _).1.trans
      (applyThoughtUpdates_doclogFields tu e).1
  have htx : (applyLexemeUpdates lu (applyThoughtUpdates tu e)).txns = e.txns :=
    (applyLexemeUpdates_doclogFields lu _).2.2.2.1.trans
      (applyThoughtUpdates_doclogFields tu e).2.2.2.1
  refine ⟨rfl, ?_, ?_, ?_,
    fun en es he => by rw [he]; exact trimHead_cons e.thoughtLog en es,
    fun en es he => by rw [he]; exact trimHead_cons e.lexemeLog en es⟩
  · show (applyLexemeDeletes lu (applyThoughtDeletes tu (applyDocLogTxn tu lu
        (applyLexemeUpdates lu (applyThoughtUpdates tu e))))).thoughtLog = _
    rw [(applyLexemeDeletes_doclogFields lu _).2.1,
        (applyThoughtDeletes_doclogFields tu _).2.1]
    show (applyLexemeUpdates lu (applyThoughtUpdates tu e)).thoughtLog ++
        trimHead (applyLexemeUpdates lu (applyThoughtUpdates tu e)).thoughtLog
          (buildLogs tu) = _
    rw [htl]
  · show (applyLexemeDeletes lu (applyThoughtDeletes tu (applyDocLogTxn tu lu
        (applyLexemeUpdates lu (applyThoughtUpdates tu e))))).lexemeLog = _
    rw [(applyLexemeDeletes_doclogFields lu _).2.2.1,
        (applyThoughtDeletes_doclogFields tu _).2.2.1]
    show (applyLexemeUpdates lu (applyThoughtUpdates tu e)).lexemeLog ++
        trimHead (applyLexemeUpdates lu (applyThoughtUpdates tu e)).lexemeLog
          (buildLogs lu) = _
    rw [hll]
  · show (applyLexemeDeletes lu (applyThoughtDeletes tu (applyDocLogTxn tu lu
        (applyLexemeUpdates lu (applyThoughtUpdates tu e))))).txns = _
    rw [(applyLexemeDeletes_doclogFields lu _).2.2.2.1,
        (applyThoughtDeletes_doclogFields tu _).2.2.2.1]
    show (applyLexemeUpdates lu (applyThoughtUpdates tu e)).txns ++
        [{ origin := (applyLexemeUpdates lu (applyThoughtUpdates tu e)).clientID,
           thoughtPush := trimHead
             (applyLexemeUpdates lu (applyThoughtUpdates tu e)).thoughtLog
             (buildLogs tu),
           lexemePush := trimHead
             (applyLexemeUpdates lu (applyThoughtUpdates tu e)).lexemeLog
             (buildLogs lu) }] = _
    rw [htx, hcid, htl, hll]

/-- Concrete thought update map for the C2 instantiation. -/
def c2tu : List (String × Option ThoughtDb) :=
  [("a", some { id := "a", parentId := "r", value := "v", rank := 0,
                lastUpdated := 0, childrenMap := [] }), ("b", none)]

/-- Concrete lexeme update map for the C2 instantiation. -/
def c2lu : List (String × Option Lexeme) := [("x", none)]

/-- Concrete engine for the C2 instantiation. -/
def c2e : Engine :=
  { clientID := 7, thoughtDocs := [], lexemeDocs := [], thoughtLog := [],
    lexemeLog := [], txns := [], effects := [] }

/-- Concrete instantiation of the C2 theorem. -/
theorem C2_updateThoughts_doclog_witness :
    buildLogs c2tu = c2tu.map (fun p =>
      (p.1, if p.2.isSome then DocLogAction.Update else DocLogAction.Delete)) ∧
    (updateThoughtsE c2tu c2lu c2e).thoughtLog =
      c2e.thoughtLog ++ trimHead c2e.thoughtLog (buildLogs c2tu) ∧
    (updateThoughtsE c2tu c2lu c2e).lexemeLog =
      c2e.lexemeLog ++ trimHead c2e.lexemeLog (buildLogs c2lu) ∧
    (updateThoughtsE c2tu c2lu c2e).txns = c2e.txns ++
      [{ origin := c2e.clientID,
         thoughtPush := trimHead c2e.thoughtLog (buildLogs c2tu),
         lexemePush := trimHead c2e.lexemeLog (buildLogs c2lu) }] ∧
    (∀ en es, buildLogs c2tu = en :: es →
      (trimHead c2e.thoughtLog (buildLogs c2tu) = es ↔
        c2e.thoughtLog.getLast? = some en) ∧
      (trimHead c2e.thoughtLog (buildLogs c2tu) = en :: es ↔
        ¬ c2e.thoughtLog.getLast? = some en)) ∧
    (∀ en es, buildLogs c2lu = en :: es →
      (trimHead c2e.lexemeLog (buildLogs c2lu) = es ↔
        c2e.lexemeLog.getLast? = some en) ∧
      (trimHead c2e.lexemeLog (buildLogs c2lu) = en :: es ↔
        ¬ c2e.lexemeLog.getLast? = some en)) :=
  C2_updateThoughts_doclog c2tu c2lu c2e

/-- Claim C10: replicateThought and replicateLexeme install the registry
entry synchronously, before their first suspension point, so updateThought
and updateLexeme, which call the replicate function without awaiting it
when the document is absent, always find a defined document to transact on
and never dereference a missing registry entry. -/
theorem C10_replicate_installs_registry_synchronously (id key : String)
    (e : Engine) :
    ((replicateThoughtInstall id e).thoughtDocs.lookup id).isSome = true ∧
    ((replicateLexemeInstall key e).lexemeDocs.lookup key).isSome = true ∧
    (updateThoughtTarget id e).isSome = true ∧
    (updateLexemeTarget key e).isSome = true := by
  have hT : ∀ f : Engine,
      ((replicateThoughtInstall id f).thoughtDocs.lookup id).isSome = true := by
    intro f
    unfold replicateThoughtInstall
    by_cases h : (f.thoughtDocs.lookup id).isSome
    · simp only [h, if_true]
    · simp only [h, if_false]
      have h0 : f.thoughtDocs.lookup id = none := by
        rcases hq : f.thoughtDocs.lookup id with _ | d
        · rfl
        · rw [hq] at h
          simp at h
      show ((f.thoughtDocs ++ [(id, ThoughtDoc.empty)]).lookup id).isSome = true
      rw [lookupAppend, h0]
      simp [List.lookup]
  have hL : ∀ f : Engine,
      ((replicateLexemeInstall key f).lexemeDocs.lookup key).isSome = true := by
    intro f
    unfold replicateLexemeInstall
    by_cases h : (f.lexemeDocs.lookup key).isSome
    · simp only [h, if_true]
    · simp only [h, if_false]
      have h0 : f.lexemeDocs.lookup key = none := by
        rcases hq : f.lexemeDocs.lookup key with _ | v
        · rfl
        · rw [hq] at h
          simp at h
      show ((f.lexemeDocs ++ [(key, Lexeme.mk [])]).lookup key).isSome = true
      rw [lookupAppend, h0]
      simp [List.lookup]
  refine ⟨hT e, hL e, ?_, ?_⟩
  · unfold updateThoughtTarget
    by_cases h : (e.thoughtDocs.lookup id).isSome
    · simp only [h, if_true]
    · simp only [h, if_false]
      exact hT e
  · unfold updateLexemeTarget
    by_cases h : (e.lexemeDocs.lookup key).isSome
    · simp only [h, if_true]
    · simp only [h, if_false]
      exact hL e

/-- The thought delete phase of clear: delete every currently registered
thought, the key list snapshotted from the registry. -/
def deleteAllThoughts (e : Engine) : Engine :=
  (e.thoughtDocs.map Prod.fst).foldl
    (fun (acc : Engine) (i : String) => deleteThoughtE i acc) e

/-- The lexeme delete phase of clear, symmetric to deleteAllThoughts. -/
def deleteAllLexemes (e : Engine) : Engine :=
  (e.lexemeDocs.map Prod.fst).foldl
    (fun (acc : Engine) (k : String) => deleteLexemeE k acc) e

/-- Modelled from the spec: the root thought of the default initial state;
initialState from the util module is not part of the source snapshot, and
the spec requires of it only that the root thought exists. -/
def rootThought : Thought :=
  { id := HOME_TOKEN, parentId := HOME_TOKEN, value := "", rank := 0,
    lastUpdated := 0, childrenMap := [] }

/-- Modelled from the spec: the thought index of the default initial
state, projected through thoughtToDb as clear does. -/
def initialThoughtUpdates : List (String × Option ThoughtDb) :=
  [(HOME_TOKEN, some (thoughtToDb rootThought))]

/-- Modelled from the spec: the lexeme index of the default initial
state. -/
def initialLexemeUpdates : List (String × Option Lexeme) := []

/-- clear from the source: delete every currently registered thought and
lexeme, then replay the default initial state through updateThoughts so
that the root thought exists again. -/
def clearE (e : Engine) : Engine :=
  updateThoughtsE initialThoughtUpdates initialLexemeUpdates
    (deleteAllLexemes (deleteAllThoughts e))

theorem foldl_deleteThoughtE_docs (ids : List String) :
    ∀ e : Engine,
    ((ids.foldl (fun (acc : Engine) (i : String) => deleteThoughtE i acc)
        e).thoughtDocs) =
      e.thoughtDocs.filter (fun p => !(ids.contains p.1)) := by
  induction ids with
  | nil =>
    intro e
    simp
  | cons i rest ih =>
    intro e
    rw [List.foldl_cons, ih]
    show (e.thoughtDocs.filter (fun p => !(p.1 == i))).filter
      (fun p => !(rest.contains p.1)) = _
    rw [List.filter_filter]
    refine List.filter_congr ?_
    intro p _
    by_cases hpi : p.1 = i <;>
      simp [hpi, List.contains_cons, Bool.not_or, Bool.and_comm]

theorem foldl_deleteLexemeE_docs (keys : List String) :
    ∀ e : Engine,
    ((keys.foldl (fun (acc : Engine) (k : String) => deleteLexemeE k acc)
        e).lexemeDocs) =
      e.lexemeDocs.filter (fun p => !(keys.contains p.1)) := by
  induction keys with
  | nil =>
    intro e
    simp
  | cons k rest ih =>
    intro e
    rw [List.foldl_cons, ih]
    show (e.lexemeDocs.filter (fun p => !(p.1 == k))).filter
      (fun p => !(rest.contains p.1)) = _
    rw [List.filter_filter]
    refine List.filter_congr ?_
    intro p _
    by_cases hpk : p.1 = k <;>
      simp [hpk, List.contains_cons, Bool.not_or, Bool.and_comm]

theorem deleteAllThoughts_docs_empty (e : Engine) :
    (deleteAllThoughts e).thoughtDocs = [] := by
  unfold deleteAllThoughts
  rw [foldl_deleteThoughtE_docs]
  refine List.filter_eq_nil_iff.mpr ?_
  intro p hp
  have : p.1 ∈ e.thoughtDocs.map Prod.fst := List.mem_map.mpr ⟨p, hp, rfl⟩
  simp [this]

theorem deleteAllLexemes_docs_empty (e : Engine) :
    (deleteAllLexemes e).lexemeDocs = [] := by
  unfold deleteAllLexemes
  rw [foldl_deleteLexemeE_docs]
  refine List.filter_eq_nil_iff.mpr ?_
  intro p hp
  have : p.1 ∈ e.lexemeDocs.map Prod.fst := List.mem_map.mpr ⟨p, hp, rfl⟩
  simp [this]

theorem deleteAllThoughts_lexemeDocs (e : Engine) :
    (deleteAllThoughts e).lexemeDocs = e.lexemeDocs := by
  unfold deleteAllThoughts
  exact foldl_preserves Engine.lexemeDocs
    (fun (acc : Engine) (i : String) => deleteThoughtE i acc)
    (fun e2 i => (deleteThoughtE_doclogFields i e2).2.2.2.2) _ e

theorem deleteAllLexemes_thoughtDocs (e : Engine) :
    (deleteAllLexemes e).thoughtDocs = e.thoughtDocs := by
  unfold deleteAllLexemes
  exact foldl_preserves Engine.thoughtDocs
    (fun (acc : Engine) (k : String) => deleteLexemeE k acc)
    (fun e2 k => (deleteLexemeE_doclogFields k e2).2.2.2.2) _ e

theorem foldl_effects_mono {α : Type} (f : Engine → α → Engine)
    (hf : ∀ e a x, x ∈ e.effects → x ∈ (f e a).effects) (l : List α) :
    ∀ e x, x ∈ e.effects → x ∈ (l.foldl f e).effects := by
  induction l with
  | nil => exact fun e x hx => hx
  | cons a rest ih => exact fun e x hx => ih _ x (hf e a x hx)

theorem updateThoughtE_effects_mono (id : String) (db : ThoughtDb)
    (e : Engine) (x : DelEffect) (hx : x ∈ e.effects) :
    x ∈ (updateThoughtE id db e).effects := by
  unfold updateThoughtE replicateThoughtInstall
  by_cases h : (e.thoughtDocs.lookup id).isSome
  · simp only [h, if_true]
    rcases hq : e.thoughtDocs.lookup id with _ | d <;> simp [hq, hx]
  · simp only [h, if_false]
    rcases hq : (e.thoughtDocs ++ [(id, ThoughtDoc.empty)]).lookup id
      with _ | d <;> simp [hq, hx]

theorem updateLexemeE_effects_mono (key : String) (e : Engine)
    (x : DelEffect) (hx : x ∈ e.effects) :
    x ∈ (updateLexemeE key e).effects := by
  unfold updateLexemeE replicateLexemeInstall
  by_cases h : (e.lexemeDocs.lookup key).isSome
  · simp only [h, if_true]
    rcases hq : e.lexemeDocs.lookup key with _ | v <;> simp [hq, hx]
  · simp only [h, if_false]
    rcases hq : (e.lexemeDocs ++ [(key, Lexeme.mk [])]).lookup key
      with _ | v <;> simp [hq, hx]

theorem deleteThoughtE_effects_mono (i : String) (e : Engine)
    (x : DelEffect) (hx : x ∈ e.effects) :
    x ∈ (deleteThoughtE i e).effects :=
  List.mem_append_left _ hx

theorem deleteLexemeE_effects_mono (k : String) (e : Engine)
    (x : DelEffect) (hx : x ∈ e.effects) :
    x ∈ (deleteLexemeE k e).effects :=
  List.mem_append_left _ hx

theorem updateThoughtsE_effects_mono (tu : List (String × Option ThoughtDb))
    (lu : List (String × Option Lexeme)) (e : Engine) (x : DelEffect)
    (hx : x ∈ e.effects) : x ∈ (updateThoughtsE tu lu e).effects := by
  show x ∈ (applyLexemeDeletes lu (applyThoughtDeletes tu (applyDocLogTxn tu lu
    (applyLexemeUpdates lu (applyThoughtUpdates tu e))))).effects
  refine foldl_effects_mono _ (fun e2 k y hy => deleteLexemeE_effects_mono k e2 y hy) _ _ x ?_
  refine foldl_effects_mono _ (fun e2 i y hy => deleteThoughtE_effects_mono i e2 y hy) _ _ x ?_
  show x ∈ (applyLexemeUpdates lu (applyThoughtUpdates tu e)).effects
  refine foldl_effects_mono _ (fun e2 k y hy => updateLexemeE_effects_mono k e2 y hy) _ _ x ?_
  refine foldl_effects_mono _ (fun e2 p y hy => updateThoughtE_effects_mono p.1 p.2 e2 y hy) _ _ x ?_
  exact hx

theorem deleteThoughtE_effects_mem (i : String) (e : Engine) :
    DelEffect.destroyDoc i ∈ (deleteThoughtE i e).effects ∧
    DelEffect.dropDb (encodeThoughtDocumentName tsid i) ∈
      (deleteThoughtE i e).effects := by
  constructor <;>
    simp [deleteThoughtE, deleteThought, finallyDequeue, catchAlert, deleteDBp]

theorem deleteLexemeE_effects_mem (k : String) (e : Engine) :
    DelEffect.destroyDoc k ∈ (deleteLexemeE k e).effects ∧
    DelEffect.dropDb (encodeLexemeDocumentName tsid k) ∈
      (deleteLexemeE k e).effects := by
  constructor <;>
    simp [deleteLexemeE, deleteLexeme, finallyDequeue, catchAlert, deleteDBp]

theorem foldl_deleteThoughtE_effects (ids : List String) :
    ∀ (e : Engine) (i : String), i ∈ ids →
      DelEffect.destroyDoc i ∈
        ((ids.foldl (fun (acc : Engine) (j : String) => deleteThoughtE j acc)
          e).effects) ∧
      DelEffect.dropDb (encodeThoughtDocumentName tsid i) ∈
        ((ids.foldl (fun (acc : Engine) (j : String) => deleteThoughtE j acc)
          e).effects) := by
  induction ids with
  | nil =>
    intro e i h
    exact absurd h (List.not_mem_nil i)
  | cons j rest ih =>
    intro e i h
    rw [List.foldl_cons]
    rcases List.mem_cons.mp h with rfl | h2
    · constructor
      · exact foldl_effects_mono _
          (fun e2 a y hy => deleteThoughtE_effects_mono a e2 y hy) rest _ _
          (deleteThoughtE_effects_mem i e).1
      · exact foldl_effects_mono _
          (fun e2 a y hy => deleteThoughtE_effects_mono a e2 y hy) rest _ _
          (deleteThoughtE_effects_mem i e).2
    · exact ih _ i h2

theorem foldl_deleteLexemeE_effects (keys : List String) :
    ∀ (e : Engine) (k : String), k ∈ keys →
      DelEffect.destroyDoc k ∈
        ((keys.foldl (fun (acc : Engine) (j : String) => deleteLexemeE j acc)
          e).effects) ∧
      DelEffect.dropDb (encodeLexemeDocumentName tsid k) ∈
        ((keys.foldl (fun (acc : Engine) (j : String) => deleteLexemeE j acc)
          e).effects) := by
  induction keys with
  | nil =>
    intro e k h
    exact absurd h (List.not_mem_nil k)
  | cons j rest ih =>
    intro e k h
    rw [List.foldl_cons]
    rcases List.mem_cons.mp h with rfl | h2
    · constructor
      · exact foldl_effects_mono _
          (fun e2 a y hy => deleteLexemeE_effects_mono a e2 y hy) rest _ _
          (deleteLexemeE_effects_mem k e).1
      · exact foldl_effects_mono _
          (fun e2 a y hy => deleteLexemeE_effects_mono a e2 y hy) rest _ _
          (deleteLexemeE_effects_mem k e).2
    · exact ih _ k h2

theorem updateThoughtE_docs_on_empty (id : String) (db : ThoughtDb)
    (f : Engine) (h : f.thoughtDocs = []) :
    (updateThoughtE id db f).thoughtDocs =
      [(id, writeThought ThoughtDoc.empty db)] := by
  unfold updateThoughtE replicateThoughtInstall
  rw [h]
  simp [List.lookup, setThoughtDoc]

theorem clearE_thoughtDocs (e : Engine) :
    (clearE e).thoughtDocs =
      [(HOME_TOKEN, writeThought ThoughtDoc.empty (thoughtToDb rootThought))] := by
  have h2 : (deleteAllLexemes (deleteAllThoughts e)).thoughtDocs = [] :=
    (deleteAllLexemes_thoughtDocs _).trans (deleteAllThoughts_docs_empty e)
  show (updateThoughtsE initialThoughtUpdates initialLexemeUpdates
    (deleteAllLexemes (deleteAllThoughts e))).thoughtDocs = _
  rw [show (updateThoughtsE initialThoughtUpdates initialLexemeUpdates
    (deleteAllLexemes (deleteAllThoughts e))).thoughtDocs =
    (updateThoughtE HOME_TOKEN (thoughtToDb rootThought)
      (deleteAllLexemes (deleteAllThoughts e))).thoughtDocs from rfl]
  exact updateThoughtE_docs_on_empty _ _ _ h2

theorem clearE_lexemeDocs (e : Engine) : (clearE e).lexemeDocs = [] := by
  show (updateThoughtsE initialThoughtUpdates initialLexemeUpdates
    (deleteAllLexemes (deleteAllThoughts e))).lexemeDocs = []
  rw [show (updateThoughtsE initialThoughtUpdates initialLexemeUpdates
    (deleteAllLexemes (deleteAllThoughts e))).lexemeDocs =
    (applyThoughtUpdates initialThoughtUpdates
      (deleteAllLexemes (deleteAllThoughts e))).lexemeDocs from rfl]
  rw [(applyThoughtUpdates_doclogFields _ _).2.2.2.2]
  exact deleteAllLexemes_docs_empty _

/-- Claim C9: when clear resolves, every thought and lexeme that was
registered at the start of the call has been deleted, with its document
destroyed and its backing database dropped by name; the registries are
emptied of the old entries; and the default initial state has been
replayed through updateThoughts, so that the root thought exists again and
projects back to its initial content. -/
theorem C9_clear_resets (e : Engine) :
    (∀ i ∈ e.thoughtDocs.map Prod.fst,
      DelEffect.destroyDoc i ∈ (clearE e).effects ∧
      DelEffect.dropDb (encodeThoughtDocumentName tsid i) ∈ (clearE e).effects) ∧
    (∀ k ∈ e.lexemeDocs.map Prod.fst,
      DelEffect.destroyDoc k ∈ (clearE e).effects ∧
      DelEffect.dropDb (encodeLexemeDocumentName tsid k) ∈ (clearE e).effects) ∧
    (clearE e).thoughtDocs =
      [(HOME_TOKEN, writeThought ThoughtDoc.empty (thoughtToDb rootThought))] ∧
    (clearE e).lexemeDocs = [] ∧
    getThought (writeThought ThoughtDoc.empty (thoughtToDb rootThought)) true =
      .found { id := some rootThought.id,
               parentId := some rootThought.parentId,
               value := some rootThought.value, rank := some rootThought.rank,
               lastUpdated := some rootThought.lastUpdated,
               childrenMap := rootThought.childrenMap } := by
  refine ⟨?_, ?_, clearE_thoughtDocs e, clearE_lexemeDocs e, by decide⟩
  · intro i hi
    have h1 := foldl_deleteThoughtE_effects (e.thoughtDocs.map Prod.fst) e i hi
    constructor
    · exact updateThoughtsE_effects_mono _ _ _ _
        (foldl_effects_mono _
          (fun e2 a y hy => deleteLexemeE_effects_mono a e2 y hy) _ _ _ h1.1)
    · exact updateThoughtsE_effects_mono _ _ _ _
        (foldl_effects_mono _
          (fun e2 a y hy => deleteLexemeE_effects_mono a e2 y hy) _ _ _ h1.2)
  · intro k hk
    have hkeys : (deleteAllThoughts e).lexemeDocs.map Prod.fst =
        e.lexemeDocs.map Prod.fst := by
      rw [deleteAllThoughts_lexemeDocs]
    have h1 := foldl_deleteLexemeE_effects
      ((deleteAllThoughts e).lexemeDocs.map Prod.fst) (deleteAllThoughts e) k
      (by rw [hkeys]; exact hk)
    exact ⟨updateThoughtsE_effects_mono _ _ _ _ h1.1,
      updateThoughtsE_effects_mono _ _ _ _ h1.2⟩

/-- Concrete engine for the C9 instantiation. -/
def c9e : Engine :=
  { clientID := 3, thoughtDocs := [("t1", ThoughtDoc.empty)],
    lexemeDocs := [("k1", Lexeme.mk [])], thoughtLog := [],
    lexemeLog := [], txns := [], effects := [] }

/-- Concrete instantiation of the C9 theorem. -/
theorem C9_clear_resets_witness :
    (∀ i ∈ c9e.thoughtDocs.map Prod.fst,
      DelEffect.destroyDoc i ∈ (clearE c9e).effects ∧
      DelEffect.dropDb (encodeThoughtDocumentName tsid i) ∈ (clearE c9e).effects) ∧
    (∀ k ∈ c9e.lexemeDocs.map Prod.fst,
      DelEffect.destroyDoc k ∈ (clearE c9e).effects ∧
      DelEffect.dropDb (encodeLexemeDocumentName tsid k) ∈ (clearE c9e).effects) ∧
    (clearE c9e).thoughtDocs =
      [(HOME_TOKEN, writeThought ThoughtDoc.empty (thoughtToDb rootThought))] ∧
    (clearE c9e).lexemeDocs = [] ∧
    getThought (writeThought ThoughtDoc.empty (thoughtToDb rootThought)) true =
      .found { id := some rootThought.id,
               parentId := some rootThought.parentId,
               value := some rootThought.value, rank := some rootThought.rank,
               lastUpdated := some rootThought.lastUpdated,
               childrenMap := rootThought.childrenMap } :=
  C9_clear_resets c9e

end Em
